import Mathlib

/-!
Verification development for the Lancer browser extension
(a live PnL view over Meteora DAMM v2 liquidity positions).

USD amounts are modelled as exact rationals (`ℚ`): the source computes with
IEEE doubles, and every identity proved here as an exact rational equality
holds a fortiori within the floating-point tolerance (1e-6) that the
specification allows.  Maps (`Map<string, T>`) are modelled as association
lists with string keys; external collaborators (the RPC ledger, the price
feed HTTP endpoints, the URL parser of the platform) are modelled as
function-valued environment parameters, so that every theorem quantifies
over all of their possible behaviours.
-/

namespace Lancer

/-! ## Association-list helpers (model of `Map<string, T>`) -/

/-- Lookup in an association list, first binding wins (as in a JS `Map`). -/
def lookupKey {α : Type} (l : List (String × α)) (k : String) : Option α :=
  match l with
  | [] => none
  | (k', v) :: t => if k' = k then some v else lookupKey t k

/-- `map.set(k, v)`: bind `k` to `v`, dropping any previous binding of `k`. -/
def setKey {α : Type} (l : List (String × α)) (k : String) (v : α) :
    List (String × α) :=
  (k, v) :: l.filter (fun q => q.1 ≠ k)

theorem lookupKey_setKey_self {α : Type} (l : List (String × α)) (k : String) (v : α) :
    lookupKey (setKey l k v) k = some v := by
  simp [lookupKey, setKey]

theorem lookupKey_filter_ne {α : Type} (l : List (String × α)) (k k' : String)
    (h : k ≠ k') :
    lookupKey (l.filter (fun q => q.1 ≠ k)) k' = lookupKey l k' := by
  induction l with
  | nil => simp [lookupKey]
  | cons q t ih =>
    simp only [ne_eq, decide_not] at ih ⊢
    by_cases hq : q.1 = k
    · have hq' : ¬ q.1 = k' := fun hc => h (hq.symm.trans hc)
      rw [List.filter_cons_of_neg (by simp [hq])]
      rw [ih]
      simp [lookupKey, hq']
    · rw [List.filter_cons_of_pos (by simp [hq])]
      by_cases hq' : q.1 = k'
      · simp [lookupKey, hq']
      · simp [lookupKey, hq', ih]

theorem lookupKey_setKey_of_ne {α : Type} (l : List (String × α)) (k k' : String) (v : α)
    (h : k ≠ k') : lookupKey (setKey l k v) k' = lookupKey l k' := by
  simp only [setKey, lookupKey, if_neg h]
  exact lookupKey_filter_ne l k k' h

theorem mem_of_mem_setKey {α : Type} {l : List (String × α)} {k : String} {v : α}
    {q : String × α} (h : q ∈ setKey l k v) : q = (k, v) ∨ q ∈ l := by
  rcases List.mem_cons.1 h with h | h
  · exact Or.inl h
  · exact Or.inr (List.mem_of_mem_filter h)

theorem mem_of_lookupKey_eq_some {α : Type} {l : List (String × α)} {k : String} {v : α}
    (h : lookupKey l k = some v) : (k, v) ∈ l := by
  induction l with
  | nil => simp [lookupKey] at h
  | cons q t ih =>
    by_cases hq : q.1 = k
    · refine List.mem_cons.2 (Or.inl ?_)
      simp only [lookupKey, hq, if_pos rfl] at h
      obtain ⟨q1, q2⟩ := q
      simp_all
    · simp only [lookupKey, hq, if_neg hq] at h
      exact List.mem_cons.2 (Or.inr (ih h))

/-! ## ExtensionStorage pool-address bookkeeping (src/src/lib/storage.ts)

`addPoolAddress` reads the stored list, and appends the address only when it
is not already present (`currentPools.includes(poolAddress)`); when the
address is present nothing is written back.  We model its effect on the
stored `dammPoolAddresses` list. -/

/-- Effect of `ExtensionStorage.addPoolAddress` on the stored list
(src/src/lib/storage.ts, lines 76-82). -/
def addPoolAddress (poolAddress : String) (currentPools : List String) :
    List String :=
  if currentPools.contains poolAddress then currentPools
  else currentPools ++ [poolAddress]

/-- Effect of `ExtensionStorage.removePoolAddress` on the stored list. -/
def removePoolAddress (poolAddress : String) (currentPools : List String) :
    List String :=
  currentPools.filter (fun pool => pool ≠ poolAddress)

/-! ## Overall PnL aggregation (OverallPnLManager.calculateAndInjectOverallPnL)

The recomputation branch of `calculateAndInjectOverallPnL` folds over all
cached per-position PnL entries, summing `pnlUSD` and
`initialTotalValueUSD`, and derives the overall percentage as
`totalInitialValue > 0 ? (totalPnL / totalInitialValue) * 100 : 0`. -/

/-- One cached per-position PnL entry, as read by the aggregation loop. -/
structure CachedPnL where
  pnlUSD : ℚ
  initialTotalValueUSD : ℚ
  deriving DecidableEq, Repr

/-- The overall PnL pair held by `OverallPnLManager` (`{ usd, percentage }`). -/
structure OverallPnL where
  usd : ℚ
  percentage : ℚ
  deriving DecidableEq, Repr

/-- The aggregation loop of `OverallPnLManager.calculateAndInjectOverallPnL`
(src/unnamed/part_003, lines 248-265): sum `pnlUSD` and
`initialTotalValueUSD` over all cached entries, then
`overallPercentage = totalInitialValue > 0 ? (totalPnL / totalInitialValue) * 100 : 0`. -/
def calculateOverallPnL (entries : List CachedPnL) : OverallPnL :=
  let totalPnL := entries.foldl (fun acc e => acc + e.pnlUSD) 0
  let totalInitialValue := entries.foldl (fun acc e => acc + e.initialTotalValueUSD) 0
  { usd := totalPnL,
    percentage := if 0 < totalInitialValue then totalPnL / totalInitialValue * 100 else 0 }

theorem foldl_add_eq_sum {α : Type} (f : α → ℚ) (l : List α) (a : ℚ) :
    l.foldl (fun acc e => acc + f e) a = a + (l.map f).sum := by
  induction l generalizing a with
  | nil => simp
  | cons x t ih => simp [ih, add_assoc]

/-! ## The position valuation and PnL caching engine

The engine itself (Price Oracle Facade, Ledger Gateway, Cost-Basis
Resolver, Position Valuator, Portfolio Aggregator, Refresh Scheduler) is
not present under src/ — only its callers (the content-script UI managers)
and a placeholder wrapper are.  The definitions below are therefore
modelled from the spec, sections 3 to 4.6, with every external data source
(ledger, price feeds) abstracted as an environment of response functions. -/

/-- Price feed responses: `current` returns `none` on any failure (feed
unavailable, malformed response, empty result); `history` is the list of
(timestamp, price) data points in the queried range. -/
structure OracleFeed where
  current : String → Option ℚ
  history : String → List (ℤ × ℚ)

/-- Query window for historical price lookups (spec 4.2: one hour to
either side of the creation transaction's block time). -/
def QUERY_WINDOW : ℤ := 3600

/-- Modelled from the spec: `currentPrice(mint) → USD price, defaults to 0
on any failure` (Price Oracle Facade, spec 4.4). -/
def currentPrice (feed : OracleFeed) (mint : String) : ℚ :=
  (feed.current mint).getD 0

/-- Modelled from the spec: `historicalPrice(mint, at) → USD price,
nearest-timestamp match within the query window, 0 if no data point
found` (Price Oracle Facade, spec 4.4). -/
def historicalPrice (feed : OracleFeed) (mint : String) (t0 : ℤ) : ℚ :=
  let pts := (feed.history mint).filter (fun q => |q.1 - t0| ≤ QUERY_WINDOW)
  match pts with
  | [] => 0
  | q :: rest =>
    (rest.foldl (fun best cand => if |cand.1 - t0| < |best.1 - t0| then cand else best) q).2

/-- Cost basis of a position (spec 3): immutable once computed. -/
structure CostBasis where
  initialTokenAAmount : ℚ
  initialTokenBAmount : ℚ
  initialTokenAPrice : ℚ
  initialTokenBPrice : ℚ
  initialTotalValueUSD : ℚ
  createdAt : ℤ
  deriving DecidableEq, Repr

/-- Mutable current-state snapshot of one position (spec 3). -/
structure PositionValuation where
  currentTokenAAmount : ℚ
  currentTokenBAmount : ℚ
  currentFeeAAmount : ℚ
  currentFeeBAmount : ℚ
  currentTokenAPrice : ℚ
  currentTokenBPrice : ℚ
  currentTotalValueUSD : ℚ
  feesEarnedUSD : ℚ
  pnlUSD : ℚ
  pnlPercentage : ℚ
  lastUpdated : ℤ
  isStale : Bool
  costBasis : CostBasis
  deriving DecidableEq, Repr

/-- Portfolio-level summary (spec 3): a pure fold over all cached
valuations. -/
structure PortfolioSummary where
  totalCurrentValueUSD : ℚ
  totalInitialValueUSD : ℚ
  totalPnLUSD : ℚ
  totalPnLPercentage : ℚ
  totalFeesEarnedUSD : ℚ
  lastUpdated : ℤ
  positions : List (String × PositionValuation)
  deriving DecidableEq, Repr

/-- Current on-chain state of a position: withdrawable token amounts for
its full liquidity plus pending fee amounts (spec 4.3). -/
structure PoolPosState where
  tokenAAmount : ℚ
  tokenBAmount : ℚ
  feeAAmount : ℚ
  feeBAmount : ℚ
  deriving DecidableEq, Repr

/-- Parsed creation evidence of a position: the deposit legs (positive
pre/post balance deltas) of the creation transaction and its block time
(spec 4.2). `none` from the environment means the creation transaction
could not be found or parsed. -/
structure CreationEvidence where
  depositAAmount : ℚ
  depositBAmount : ℚ
  blockTime : ℤ
  deriving DecidableEq, Repr

/-- External collaborators of the engine: the ledger RPC endpoint and the
price feeds, as response functions. `positionState p = none` models a
failed pool/position fetch for pool `p`. -/
structure EngineEnv where
  feed : OracleFeed
  poolTokenA : String → String
  poolTokenB : String → String
  positionState : String → Option PoolPosState
  creationEvidence : String → Option CreationEvidence

/-- Modelled from the spec: the Cost-Basis Resolver (spec 4.2) prices each
deposit leg of the creation transaction at the historical price at its
block time and sums them into `initialTotalValueUSD`; it fails (`none`)
when the creation transaction cannot be found or parsed. -/
def resolveCostBasis (env : EngineEnv) (pool : String) : Option CostBasis :=
  (env.creationEvidence pool).map fun ev =>
    let pa := historicalPrice env.feed (env.poolTokenA pool) ev.blockTime
    let pb := historicalPrice env.feed (env.poolTokenB pool) ev.blockTime
    { initialTokenAAmount := ev.depositAAmount
      initialTokenBAmount := ev.depositBAmount
      initialTokenAPrice := pa
      initialTokenBPrice := pb
      initialTotalValueUSD := ev.depositAAmount * pa + ev.depositBAmount * pb
      createdAt := ev.blockTime }

/-- Staleness threshold (spec 3: five minutes, in seconds). -/
def STALE_THRESHOLD : ℤ := 300

/-- The engine's exclusively owned state: the tracking set and the two
caches (spec 3, Ownership). -/
structure EngineState where
  tracked : List String
  costBasisCache : List (String × CostBasis)
  valuations : List (String × PositionValuation)
  deriving DecidableEq, Repr

/-- Engine state at construction: nothing tracked, both caches empty. -/
def initEngineState : EngineState := ⟨[], [], []⟩

/-- Failure taxonomy of `valuate` (spec 4.3 and 7). -/
inductive VErr where
  | positionNotTracked
  | poolNotFound
  | costBasisUnavailable
  deriving DecidableEq, Repr

/-- Cost basis acquisition inside `valuate` (spec 4.3): cache hit, else
invoke the Cost-Basis Resolver cold. -/
def cachedOrResolve (env : EngineEnv) (s : EngineState) (pool : String) :
    Option CostBasis :=
  match lookupKey s.costBasisCache pool with
  | some cb => some cb
  | none => resolveCostBasis env pool

/-- The valuation snapshot the Valuator assembles on a successful
`valuate` (spec 4.3): price both legs via the Price Oracle Facade, value
the withdrawable amounts and the pending fees, and derive
`pnlUSD`/`pnlPercentage` per the invariants of spec 3. -/
def mkValuation (env : EngineEnv) (pool : String) (ps : PoolPosState)
    (cb : CostBasis) (now : ℤ) : PositionValuation :=
  let pa := currentPrice env.feed (env.poolTokenA pool)
  let pb := currentPrice env.feed (env.poolTokenB pool)
  let ctv := ps.tokenAAmount * pa + ps.tokenBAmount * pb
  let fees := ps.feeAAmount * pa + ps.feeBAmount * pb
  let pnl := ctv + fees - cb.initialTotalValueUSD
  { currentTokenAAmount := ps.tokenAAmount
    currentTokenBAmount := ps.tokenBAmount
    currentFeeAAmount := ps.feeAAmount
    currentFeeBAmount := ps.feeBAmount
    currentTokenAPrice := pa
    currentTokenBPrice := pb
    currentTotalValueUSD := ctv
    feesEarnedUSD := fees
    pnlUSD := pnl
    pnlPercentage := if 0 < cb.initialTotalValueUSD
                     then pnl / cb.initialTotalValueUSD * 100 else 0
    lastUpdated := now
    isStale := decide (now - now > STALE_THRESHOLD)
    costBasis := cb }

/-- Modelled from the spec: the Position Valuator (spec 4.3).  Resolves
current pool/position state, obtains the `CostBasis` (cache hit, else
cold resolution), assembles the valuation and writes it into the caches.
On any failure it returns the error and the state unchanged (no cache
entry is altered, deleted or replaced). -/
def valuate (env : EngineEnv) (s : EngineState) (pool : String) (now : ℤ) :
    Except VErr PositionValuation × EngineState :=
  if s.tracked.contains pool then
    match env.positionState pool with
    | none => (.error .poolNotFound, s)
    | some ps =>
      match cachedOrResolve env s pool with
      | none => (.error .costBasisUnavailable, s)
      | some cb =>
        let v := mkValuation env pool ps cb now
        (.ok v,
         { s with costBasisCache := setKey s.costBasisCache pool cb
                  valuations := setKey s.valuations pool v })
  else (.error .positionNotTracked, s)

/-- Modelled from the spec: the Portfolio Aggregator's `recompute` (spec
4.5), a pure fold over the valuation cache; empty cache yields `none`
("no portfolio data yet"). -/
def recompute (cache : List (String × PositionValuation)) (now : ℤ) :
    Option PortfolioSummary :=
  if cache.isEmpty then none
  else
    let tc := (cache.map (fun q => q.2.currentTotalValueUSD)).sum
    let ti := (cache.map (fun q => q.2.costBasis.initialTotalValueUSD)).sum
    let tp := (cache.map (fun q => q.2.pnlUSD)).sum
    let tf := (cache.map (fun q => q.2.feesEarnedUSD)).sum
    some { totalCurrentValueUSD := tc
           totalInitialValueUSD := ti
           totalPnLUSD := tp
           totalPnLPercentage := if 0 < ti then tp / ti * 100 else 0
           totalFeesEarnedUSD := tf
           lastUpdated := now
           positions := cache }

/-- Modelled from the spec: the Refresh Scheduler's `refreshAll` (spec
4.6) fans `valuate` out over every tracked pool, joins with all-settled
semantics (a per-position failure is logged and skipped, never aborting
the batch), then invokes the Aggregator. -/
def refreshAll (env : EngineEnv) (s : EngineState) (now : ℤ) :
    EngineState × Option PortfolioSummary :=
  let s' := s.tracked.foldl (fun acc p => (valuate env acc p now).2) s
  (s', recompute s'.valuations now)

/-- Modelled from the spec: `refreshOne` (spec 4.6), a single-position
refresh followed by an aggregate recompute. -/
def refreshOne (env : EngineEnv) (s : EngineState) (pool : String) (now : ℤ) :
    EngineState × Option PortfolioSummary :=
  let s' := (valuate env s pool now).2
  (s', recompute s'.valuations now)

/-- `clearCaches()` drops both caches entirely (spec 6). -/
def clearCaches (s : EngineState) : EngineState :=
  { s with costBasisCache := [], valuations := [] }

/-- One externally triggerable engine operation, carrying the external
world's responses for that step. -/
inductive EngineOp where
  | valuateOp (env : EngineEnv) (pool : String) (now : ℤ)
  | refreshAllOp (env : EngineEnv) (now : ℤ)
  | refreshOneOp (env : EngineEnv) (pool : String) (now : ℤ)
  | trackOp (pool : String)
  | clearOp

/-- Apply one engine operation to the engine state. -/
def applyOp (s : EngineState) : EngineOp → EngineState
  | .valuateOp env p now => (valuate env s p now).2
  | .refreshAllOp env now => (refreshAll env s now).1
  | .refreshOneOp env p now => (refreshOne env s p now).1
  | .trackOp p => { s with tracked := p :: s.tracked }
  | .clearOp => clearCaches s

/-- Run a sequence of operations from the freshly constructed engine. -/
def runOps (ops : List EngineOp) : EngineState :=
  ops.foldl applyOp initEngineState

/-- The PnL identities of spec 3, read off one cached valuation. -/
def ValuationConsistent (v : PositionValuation) : Prop :=
  v.pnlUSD = v.currentTotalValueUSD + v.feesEarnedUSD - v.costBasis.initialTotalValueUSD ∧
  v.pnlPercentage =
    (if 0 < v.costBasis.initialTotalValueUSD
     then v.pnlUSD / v.costBasis.initialTotalValueUSD * 100 else 0)

/-- The cache-wide PnL invariant (spec 8). -/
def PnLInvariant (s : EngineState) : Prop :=
  ∀ p v, (p, v) ∈ s.valuations → ValuationConsistent v

/-! ## DAMMPoolManager.scanAndUpdatePools (src/unnamed/part_003, lines 687-739)

The method guards itself with the `isUpdating` busy flag: a call arriving
while one is in flight returns immediately (no scan, no state change).
Otherwise it sets the flag, scans the DOM pool table, persists the pool
list if it changed, and clears the flag in a `finally` block — also when
the body throws. -/

/-- One cached per-position UI PnL entry (`PositionPnL` in the source). -/
structure PositionPnL where
  poolAddress : String
  pnl : ℚ
  pnlPercentage : ℚ
  deriving DecidableEq, Repr

/-- Static state of `DAMMPoolManager`: the tracked pool-address set, the
UI PnL cache, the busy flag, and the pool list persisted through
`ExtensionStorage.savePoolAddresses`. -/
structure DAMMState where
  currentPoolAddresses : List String
  pnlData : List (String × PositionPnL)
  isUpdating : Bool
  savedPoolAddresses : List String
  deriving DecidableEq, Repr

/-- `DAMMPoolManager.scanAndUpdatePools`.  `domEntries` are the pool
addresses extractable from the page's pool table; `extractThrows` models
an exception raised inside the `try` body (caught and logged, with the
busy flag cleared in `finally`).  The second component counts how many
times the DOM scan (`extractPoolEntries`) actually ran. -/
def scanAndUpdatePools (s : DAMMState) (domEntries : List String)
    (extractThrows : Bool) : DAMMState × ℕ :=
  if s.isUpdating then (s, 0)
  else if extractThrows then ({ s with isUpdating := false }, 1)
  else
    let newPoolAddresses := domEntries.dedup
    let hasChanged :=
      newPoolAddresses.length ≠ s.currentPoolAddresses.length ∨
      ∃ a ∈ newPoolAddresses, a ∉ s.currentPoolAddresses
    let s1 := if hasChanged then
                { s with currentPoolAddresses := newPoolAddresses
                         savedPoolAddresses := newPoolAddresses }
              else s
    ({ s1 with isUpdating := false }, 1)

/-! ## LancerBackend (src/src/backend.ts, lines 5-180)

`LancerBackend` validates the stored RPC URL before creating any handle:
an empty or whitespace URL, a URL the platform's parser rejects, and any
URL containing `api.mainnet-beta.solana.com` are all refused with `false`
before a `Connection` is constructed.  When the connection test throws,
the `catch` block resets `cpAmm`, `connection` and `rpcUrl` to `null`.
The platform pieces (`new URL`, the `getSlot` probe) are environment
parameters. -/

/-- Whitespace recognised by the model of `String.prototype.trim`. -/
def isSpaceChar (c : Char) : Bool :=
  c = ' ' || c = '\t' || c = '\n' || c = '\r'

/-- Model of `String.prototype.trim`: strip whitespace from both ends. -/
def jsTrim (s : String) : String :=
  ⟨(((s.data.dropWhile isSpaceChar).reverse.dropWhile isSpaceChar).reverse)⟩

/-- `pat` occurs as a contiguous run inside `s` (model of
`String.prototype.includes`). -/
def charsContain (s pat : List Char) : Bool :=
  match s with
  | [] => pat.isEmpty
  | _ :: t => pat.isPrefixOf s || charsContain t pat

/-- `s.includes(pat)` on strings. -/
def strIncludes (s pat : String) : Bool :=
  charsContain s.data pat.data

/-- The three nullable fields of the `LancerBackend` singleton. -/
structure BackendState where
  cpAmm : Option String
  connection : Option String
  rpcUrl : Option String
  deriving DecidableEq, Repr

/-- Field initializers of `LancerBackend`: all three fields `null`. -/
def freshBackendState : BackendState := ⟨none, none, none⟩

/-- External behaviour relevant to `LancerBackend.initialize`: the RPC URL
read from `ExtensionStorage.getSettings()` (which never throws), whether
`new URL(url)` succeeds, and whether the `getSlot` connection test
succeeds. -/
structure InitEnv where
  storedRpcUrl : String
  urlParses : String → Bool
  connectionTestOk : Bool

/-- Result of one `initialize()` call: the returned boolean, the fields
afterwards, and how many `Connection` / `CpAmm` instances were
constructed during the call. -/
structure InitResult where
  ok : Bool
  state : BackendState
  connectionsCreated : ℕ
  cpAmmsCreated : ℕ
  deriving DecidableEq, Repr

/-- `LancerBackend.initialize` (src/src/backend.ts, lines 24-83). -/
def initBackend (env : InitEnv) (s : BackendState) : InitResult :=
  if jsTrim env.storedRpcUrl = "" then ⟨false, s, 0, 0⟩
  else if ¬ env.urlParses env.storedRpcUrl then ⟨false, s, 0, 0⟩
  else if strIncludes env.storedRpcUrl "api.mainnet-beta.solana.com" then ⟨false, s, 0, 0⟩
  else if env.connectionTestOk then
    ⟨true,
     ⟨some env.storedRpcUrl, some env.storedRpcUrl, some env.storedRpcUrl⟩, 1, 1⟩
  else ⟨false, ⟨none, none, none⟩, 1, 0⟩

/-- `LancerBackend.isInitialized` (src/src/backend.ts, lines 129-131). -/
def isInitialized (s : BackendState) : Bool :=
  s.cpAmm.isSome && s.connection.isSome

/-! ## LancerBackendWrapper (src/src/backend.ts, lines 282-324)

The wrapper holds `positionPnLData = new Map()` and `overallPnL = null`;
`getOverallPnL()` returns `this.overallPnL || { totalPnLUSD: 0,
totalPnLPercentage: 0 }`, and `getAllPositionsPnL()` returns
`this.positionPnLData` itself. -/

/-- The overall summary object returned by the wrapper. -/
structure WrapperSummary where
  totalPnLUSD : ℚ
  totalPnLPercentage : ℚ
  deriving DecidableEq, Repr

/-- State of `LancerBackendWrapper`. -/
structure WrapperState where
  positionPnLData : List (String × PositionPnL)
  overallPnL : Option WrapperSummary
  deriving DecidableEq, Repr

/-- Field initializers of `LancerBackendWrapper`: an empty Map and a
`null` overall PnL. -/
def initWrapperState : WrapperState := ⟨[], none⟩

/-- `LancerBackendWrapper.getOverallPnL` (src/src/backend.ts, lines
293-300): `this.overallPnL || { totalPnLUSD: 0, totalPnLPercentage: 0 }`
(a `null` field falls through to the zero-valued object literal). -/
def getOverallPnL (s : WrapperState) : WrapperSummary :=
  match s.overallPnL with
  | some o => o
  | none => ⟨0, 0⟩

/-- Modelled from the spec: `getPortfolioSummary() → PortfolioSummary |
null`, where an empty valuation cache yields `null`, "signaling no
portfolio data yet rather than a zero-valued summary" (spec 4.5, 6).
Stated for comparison with `getOverallPnL`, the accessor the source
implements. -/
def getPortfolioSummarySpec (s : WrapperState) : Option WrapperSummary :=
  if s.positionPnLData.isEmpty ∧ s.overallPnL = none then none
  else some (getOverallPnL s)

/-! ## Reference semantics of the bulk valuation accessors

`LancerBackendWrapper.getAllPositionsPnL` (src/src/backend.ts, lines
302-304) is `return this.positionPnLData;` and
`DAMMPoolManager.getAllPnLData` (src/unnamed/part_003, lines 945-947) is
`return this.pnlData;`.  To make the aliasing observable we give the Map
object explicit identity: a heap of Map cells, with the manager holding a
reference (cell index) and the accessor returning a reference. -/

/-- A heap of JS `Map` objects, addressed by cell index. -/
structure MapHeap where
  cells : List (List (String × PositionPnL))
  deriving DecidableEq, Repr

/-- Read the Map stored in cell `r`. -/
def heapRead (h : MapHeap) (r : ℕ) : List (String × PositionPnL) :=
  h.cells.getD r []

/-- Overwrite the contents of the Map in cell `r` (a caller-side mutation
of the Map object, e.g. `map.set(...)` / `map.clear()`). -/
def heapWrite (h : MapHeap) (r : ℕ) (m : List (String × PositionPnL)) : MapHeap :=
  ⟨h.cells.set r m⟩

/-- The manager/wrapper state as far as the bulk accessor is concerned:
the reference to its internal PnL Map. -/
structure PnLHolder where
  pnlDataRef : ℕ
  deriving DecidableEq, Repr

/-- `getAllPnLData` / `getAllPositionsPnL`: `return this.pnlData;` — the
internal reference itself, not a copy. -/
def getAllPnLData (s : PnLHolder) : ℕ :=
  s.pnlDataRef

/-- A subsequent internal read of the PnL cache through the holder (as
`loadRealPnLData` or the aggregation loop would perform). -/
def readInternalPnLData (h : MapHeap) (s : PnLHolder) :
    List (String × PositionPnL) :=
  heapRead h s.pnlDataRef

/-! ## Demonstration inputs used by the concrete witnesses -/

/-- A small concrete price feed. -/
def demoFeed : OracleFeed :=
  { current := fun m => if m = "mintA" then some 2 else if m = "mintB" then some 3 else none
    history := fun m => if m = "mintA" then [(0, 1)] else if m = "mintB" then [(0, 2)] else [] }

/-- A concrete environment in which pool `poolA` resolves fully. -/
def demoEnv : EngineEnv :=
  { feed := demoFeed
    poolTokenA := fun _ => "mintA"
    poolTokenB := fun _ => "mintB"
    positionState := fun p => if p = "poolA" then some ⟨10, 5, 1, 1⟩ else none
    creationEvidence := fun p => if p = "poolA" then some ⟨4, 3, 0⟩ else none }

/-- Track `poolA`, then valuate it at time 0 under `demoEnv`. -/
def demoOps : List EngineOp := [.trackOp "poolA", .valuateOp demoEnv "poolA" 0]

/-- The cost basis `demoEnv` yields for `poolA`: 4 of A at 1 USD plus 3 of
B at 2 USD, 10 USD in total. -/
def demoCostBasis : CostBasis := ⟨4, 3, 1, 2, 10, 0⟩

/-- The valuation `demoEnv` yields for `poolA` at time 0: 10 of A at 2
USD and 5 of B at 3 USD (35 USD), 1+1 pending fees (5 USD), so a PnL of
35 + 5 - 10 = 30 USD, which is 300 percent of the 10 USD cost basis. -/
def demoValuation : PositionValuation :=
  ⟨10, 5, 1, 1, 2, 3, 35, 5, 30, 300, 0, false, demoCostBasis⟩

/-! ## Engine lemmas -/

theorem valuate_not_tracked (env : EngineEnv) (s : EngineState) (pool : String) (now : ℤ)
    (ht : pool ∉ s.tracked) :
    valuate env s pool now = (.error .positionNotTracked, s) := by
  simp [valuate, ht]

theorem valuate_no_pos_state (env : EngineEnv) (s : EngineState) (pool : String) (now : ℤ)
    (ht : pool ∈ s.tracked) (hps : env.positionState pool = none) :
    valuate env s pool now = (.error .poolNotFound, s) := by
  simp [valuate, ht, hps]

theorem valuate_no_cost_basis (env : EngineEnv) (s : EngineState) (pool : String) (now : ℤ)
    (ht : pool ∈ s.tracked) (ps : PoolPosState)
    (hps : env.positionState pool = some ps)
    (hcb : cachedOrResolve env s pool = none) :
    valuate env s pool now = (.error .costBasisUnavailable, s) := by
  simp [valuate, ht, hps, hcb]

theorem valuate_ok (env : EngineEnv) (s : EngineState) (pool : String) (now : ℤ)
    (ht : pool ∈ s.tracked) (ps : PoolPosState) (cb : CostBasis)
    (hps : env.positionState pool = some ps)
    (hcb : cachedOrResolve env s pool = some cb) :
    valuate env s pool now =
      (.ok (mkValuation env pool ps cb now),
       { s with costBasisCache := setKey s.costBasisCache pool cb
                valuations := setKey s.valuations pool (mkValuation env pool ps cb now) }) := by
  simp [valuate, ht, hps, hcb]

/-- The valuation assembled on the warm path always satisfies the PnL
identities of spec 3. -/
theorem mkValuation_consistent (env : EngineEnv) (pool : String) (ps : PoolPosState)
    (cb : CostBasis) (now : ℤ) : ValuationConsistent (mkValuation env pool ps cb now) :=
  ⟨rfl, rfl⟩

theorem pnlInvariant_valuate (env : EngineEnv) (s : EngineState) (pool : String) (now : ℤ)
    (h : PnLInvariant s) : PnLInvariant (valuate env s pool now).2 := by
  by_cases ht : pool ∈ s.tracked
  · cases hps : env.positionState pool with
    | none => rw [valuate_no_pos_state env s pool now ht hps]; exact h
    | some ps =>
      cases hcb : cachedOrResolve env s pool with
      | none => rw [valuate_no_cost_basis env s pool now ht ps hps hcb]; exact h
      | some cb =>
        rw [valuate_ok env s pool now ht ps cb hps hcb]
        intro p v hv
        rcases mem_of_mem_setKey hv with heq | hmem
        · have hv' : v = mkValuation env pool ps cb now := congrArg Prod.snd heq
          rw [hv']
          exact mkValuation_consistent env pool ps cb now
        · exact h p v hmem
  · rw [valuate_not_tracked env s pool now ht]; exact h

theorem pnlInvariant_foldl (env : EngineEnv) (now : ℤ) :
    ∀ (L : List String) (s : EngineState), PnLInvariant s →
      PnLInvariant (L.foldl (fun acc p => (valuate env acc p now).2) s) := by
  intro L
  induction L with
  | nil => intro s h; simpa using h
  | cons q t ih => intro s h; exact ih _ (pnlInvariant_valuate env s q now h)

theorem pnlInvariant_applyOp (s : EngineState) (op : EngineOp)
    (h : PnLInvariant s) : PnLInvariant (applyOp s op) := by
  cases op with
  | valuateOp env p now => exact pnlInvariant_valuate env s p now h
  | refreshAllOp env now => exact pnlInvariant_foldl env now s.tracked s h
  | refreshOneOp env p now => exact pnlInvariant_valuate env s p now h
  | trackOp p => intro q v hv; exact h q v hv
  | clearOp => intro q v hv; simp [applyOp, clearCaches] at hv

theorem cachedOrResolve_ne_none (env : EngineEnv) (s : EngineState) (pool : String)
    (h : lookupKey s.costBasisCache pool ≠ none ∨ env.creationEvidence pool ≠ none) :
    cachedOrResolve env s pool ≠ none := by
  unfold cachedOrResolve
  cases hl : lookupKey s.costBasisCache pool with
  | some cb => simp
  | none =>
    rcases h with h | h
    · exact absurd hl h
    · simp only [resolveCostBasis, ne_eq, Option.map_eq_none']
      exact h

theorem valuate_tracked_eq (env : EngineEnv) (s : EngineState) (pool : String) (now : ℤ) :
    (valuate env s pool now).2.tracked = s.tracked := by
  by_cases ht : pool ∈ s.tracked
  · cases hps : env.positionState pool with
    | none => rw [valuate_no_pos_state env s pool now ht hps]
    | some ps =>
      cases hcb : cachedOrResolve env s pool with
      | none => rw [valuate_no_cost_basis env s pool now ht ps hps hcb]
      | some cb => rw [valuate_ok env s pool now ht ps cb hps hcb]
  · rw [valuate_not_tracked env s pool now ht]

theorem valuate_cbCache_preserved (env : EngineEnv) (s : EngineState) (q : String)
    (now : ℤ) (p : String) (h : lookupKey s.costBasisCache p ≠ none) :
    lookupKey (valuate env s q now).2.costBasisCache p ≠ none := by
  by_cases ht : q ∈ s.tracked
  · cases hps : env.positionState q with
    | none => rw [valuate_no_pos_state env s q now ht hps]; exact h
    | some ps =>
      cases hcb : cachedOrResolve env s q with
      | none => rw [valuate_no_cost_basis env s q now ht ps hps hcb]; exact h
      | some cb =>
        rw [valuate_ok env s q now ht ps cb hps hcb]
        by_cases hpq : q = p
        · subst hpq
          rw [lookupKey_setKey_self]
          simp
        · rw [lookupKey_setKey_of_ne _ _ _ _ hpq]
          exact h
  · rw [valuate_not_tracked env s q now ht]; exact h

theorem valuate_keeps_written (env : EngineEnv) (s : EngineState) (q : String)
    (now : ℤ) (p : String)
    (h : ∃ v, lookupKey s.valuations p = some v ∧ v.lastUpdated = now) :
    ∃ v, lookupKey (valuate env s q now).2.valuations p = some v ∧
         v.lastUpdated = now := by
  by_cases ht : q ∈ s.tracked
  · cases hps : env.positionState q with
    | none => rw [valuate_no_pos_state env s q now ht hps]; exact h
    | some ps =>
      cases hcb : cachedOrResolve env s q with
      | none => rw [valuate_no_cost_basis env s q now ht ps hps hcb]; exact h
      | some cb =>
        rw [valuate_ok env s q now ht ps cb hps hcb]
        by_cases hpq : q = p
        · subst hpq
          exact ⟨mkValuation env q ps cb now, lookupKey_setKey_self _ _ _, rfl⟩
        · rw [lookupKey_setKey_of_ne _ _ _ _ hpq]
          exact h
  · rw [valuate_not_tracked env s q now ht]; exact h

theorem valuate_success_writes (env : EngineEnv) (s : EngineState) (pool : String)
    (now : ℤ) (ht : pool ∈ s.tracked) (hps : env.positionState pool ≠ none)
    (hcb : lookupKey s.costBasisCache pool ≠ none ∨ env.creationEvidence pool ≠ none) :
    ∃ v, lookupKey (valuate env s pool now).2.valuations pool = some v ∧
         v.lastUpdated = now := by
  rcases Option.ne_none_iff_exists'.1 hps with ⟨ps, hps'⟩
  rcases Option.ne_none_iff_exists'.1 (cachedOrResolve_ne_none env s pool hcb) with ⟨cb, hcb'⟩
  rw [valuate_ok env s pool now ht ps cb hps' hcb']
  exact ⟨mkValuation env pool ps cb now, lookupKey_setKey_self _ _ _, rfl⟩

theorem fold_keeps_written (env : EngineEnv) (now : ℤ) :
    ∀ (L : List String) (s : EngineState) (p : String),
      (∃ v, lookupKey s.valuations p = some v ∧ v.lastUpdated = now) →
      ∃ v, lookupKey ((L.foldl (fun acc q => (valuate env acc q now).2) s).valuations) p
             = some v ∧ v.lastUpdated = now := by
  intro L
  induction L with
  | nil => intro s p h; simpa using h
  | cons q t ih => intro s p h; exact ih _ p (valuate_keeps_written env s q now p h)

theorem refreshAll_fold_writes (env : EngineEnv) (now : ℤ) :
    ∀ (L : List String) (s : EngineState) (p : String),
      p ∈ L → p ∈ s.tracked →
      env.positionState p ≠ none →
      (lookupKey s.costBasisCache p ≠ none ∨ env.creationEvidence p ≠ none) →
      ∃ v, lookupKey ((L.foldl (fun acc q => (valuate env acc q now).2) s).valuations) p
             = some v ∧ v.lastUpdated = now := by
  intro L
  induction L with
  | nil => intro s p hp; exact absurd hp (List.not_mem_nil p)
  | cons q t ih =>
    intro s p hp ht hps hcb
    simp only [List.foldl_cons]
    rcases List.mem_cons.1 hp with hpq | hp'
    · subst hpq
      exact fold_keeps_written env now t _ p (valuate_success_writes env s p now ht hps hcb)
    · have ht' : p ∈ (valuate env s q now).2.tracked := by
        rw [valuate_tracked_eq]; exact ht
      have hcb' : lookupKey (valuate env s q now).2.costBasisCache p ≠ none ∨
          env.creationEvidence p ≠ none := by
        rcases hcb with h | h
        · exact Or.inl (valuate_cbCache_preserved env s q now p h)
        · exact Or.inr h
      exact ih _ p hp' ht' hps hcb'

theorem pnlInvariant_runOps (ops : List EngineOp) : PnLInvariant (runOps ops) := by
  have key : ∀ (l : List EngineOp) (s : EngineState),
      PnLInvariant s → PnLInvariant (l.foldl applyOp s) := by
    intro l
    induction l with
    | nil => intro s h; simpa using h
    | cons o t ih => intro s h; exact ih _ (pnlInvariant_applyOp s o h)
  refine key ops initEngineState ?_
  intro p v hv
  simp [initEngineState] at hv

/-! ## Claim theorems -/

/-- Claim C1: for every position valuation held in the valuation cache,
`pnlUSD = currentTotalValueUSD + feesEarnedUSD -
costBasis.initialTotalValueUSD` and `pnlPercentage = pnlUSD /
costBasis.initialTotalValueUSD * 100` when `initialTotalValueUSD` is
positive, else 0 — after every sequence of cache-writing operations run
from the freshly constructed engine.  Exact rational equality implies the
claimed 1e-6 floating-point tolerance. -/
theorem pnl_cache_invariant :
    ∀ (ops : List EngineOp) (p : String) (v : PositionValuation),
      (p, v) ∈ (runOps ops).valuations →
      v.pnlUSD = v.currentTotalValueUSD + v.feesEarnedUSD
          - v.costBasis.initialTotalValueUSD ∧
      v.pnlPercentage =
        (if 0 < v.costBasis.initialTotalValueUSD
         then v.pnlUSD / v.costBasis.initialTotalValueUSD * 100 else 0) := by
  intro ops p v hv
  exact pnlInvariant_runOps ops p v hv

/-- Concrete instance of C1: after tracking and valuating `poolA` under
`demoEnv`, the cached valuation satisfies both PnL identities. -/
theorem pnl_cache_invariant_witness :
    demoValuation.pnlUSD = demoValuation.currentTotalValueUSD
        + demoValuation.feesEarnedUSD - demoValuation.costBasis.initialTotalValueUSD ∧
    demoValuation.pnlPercentage =
      (if 0 < demoValuation.costBasis.initialTotalValueUSD
       then demoValuation.pnlUSD / demoValuation.costBasis.initialTotalValueUSD * 100
       else 0) :=
  pnl_cache_invariant demoOps "poolA" demoValuation (by
    simp [runOps, demoOps, applyOp, valuate, cachedOrResolve, resolveCostBasis,
      mkValuation, currentPrice, historicalPrice, demoEnv, demoFeed, demoValuation,
      demoCostBasis, setKey, lookupKey, initEngineState, QUERY_WINDOW, STALE_THRESHOLD,
      List.filter]
    norm_num)

/-- Claim C2: the recomputed overall summary's `usd` is the sum of all
cached positions' `pnlUSD`, its `percentage` is that sum divided by the
summed initial values times 100 (0 when that sum is not positive), and on
positions with initial values 100 and 200 and PnLs +10 and -20 it yields
-10 USD and -10/300*100 percent, which displays as -3.33 at two
decimals. -/
theorem calculateOverallPnL_correct :
    (∀ entries : List CachedPnL,
       (calculateOverallPnL entries).usd = (entries.map (fun e => e.pnlUSD)).sum ∧
       (calculateOverallPnL entries).percentage =
         (if 0 < (entries.map (fun e => e.initialTotalValueUSD)).sum
          then (entries.map (fun e => e.pnlUSD)).sum
                 / (entries.map (fun e => e.initialTotalValueUSD)).sum * 100
          else 0)) ∧
    calculateOverallPnL [⟨10, 100⟩, ⟨-20, 200⟩] = ⟨-10, -10 / 300 * 100⟩ ∧
    |(-10 : ℚ) / 300 * 100 - (-333 / 100)| < 1 / 100 := by
  refine ⟨fun entries => ⟨?_, ?_⟩, ?_, ?_⟩
  · simp [calculateOverallPnL, foldl_add_eq_sum]
  · simp [calculateOverallPnL, foldl_add_eq_sum]
  · simp only [calculateOverallPnL, List.foldl_cons, List.foldl_nil]
    norm_num
  · rw [abs_sub_lt_iff]
    norm_num

/-- Claim C4: `scanAndUpdatePools` never overlaps with itself — while the
busy flag is set a further call is a no-op that performs no DOM scan and
leaves the manager state unchanged, and a cycle that does run (including
one whose body throws) ends with the busy flag cleared. -/
theorem scanAndUpdatePools_no_overlap :
    ∀ (s : DAMMState) (domEntries : List String) (extractThrows : Bool),
      (s.isUpdating = true →
        scanAndUpdatePools s domEntries extractThrows = (s, 0)) ∧
      (s.isUpdating = false →
        (scanAndUpdatePools s domEntries extractThrows).1.isUpdating = false) := by
  intro s domEntries extractThrows
  constructor
  · intro h
    simp [scanAndUpdatePools, h]
  · intro h
    cases extractThrows with
    | true => simp [scanAndUpdatePools, h]
    | false =>
      simp only [scanAndUpdatePools, h, Bool.false_eq_true, if_false]

/-- Concrete instance of C4: a call on a busy manager changes nothing and
scans nothing; a call whose body throws still clears the busy flag. -/
theorem scanAndUpdatePools_no_overlap_witness :
    scanAndUpdatePools ⟨["A"], [], true, ["A"]⟩ ["B"] false
        = (⟨["A"], [], true, ["A"]⟩, 0) ∧
    (scanAndUpdatePools ⟨["A"], [], false, ["A"]⟩ ["B"] true).1.isUpdating = false :=
  ⟨(scanAndUpdatePools_no_overlap ⟨["A"], [], true, ["A"]⟩ ["B"] false).1 rfl,
   (scanAndUpdatePools_no_overlap ⟨["A"], [], false, ["A"]⟩ ["B"] true).2 rfl⟩

/-- Claim C10: `addPoolAddress` leaves the stored list unchanged when the
address is already present, appends it at the end otherwise, is
idempotent, and never introduces a duplicate into a duplicate-free
list. -/
theorem addPoolAddress_idempotent :
    ∀ (a : String) (l : List String),
      (a ∈ l → addPoolAddress a l = l) ∧
      (a ∉ l → addPoolAddress a l = l ++ [a]) ∧
      addPoolAddress a (addPoolAddress a l) = addPoolAddress a l ∧
      (l.Nodup → (addPoolAddress a l).Nodup) := by
  intro a l
  by_cases h : a ∈ l
  · refine ⟨fun _ => ?_, fun h' => absurd h h', ?_, fun hn => ?_⟩
    · simp [addPoolAddress, h]
    · simp [addPoolAddress, h]
    · simpa [addPoolAddress, h] using hn
  · refine ⟨fun h' => absurd h' h, fun _ => ?_, ?_, fun hn => ?_⟩
    · simp [addPoolAddress, h]
    · simp [addPoolAddress, h]
    · simp [addPoolAddress, h, List.nodup_append, hn]

/-- Concrete instance of C10: adding a fresh address appends it; the
result of adding it twice is the same, and stays duplicate-free. -/
theorem addPoolAddress_idempotent_witness :
    addPoolAddress "pool2" ["pool1"] = ["pool1"] ++ ["pool2"] ∧
    addPoolAddress "pool2" (addPoolAddress "pool2" ["pool1"])
        = addPoolAddress "pool2" ["pool1"] ∧
    (addPoolAddress "pool2" ["pool1"]).Nodup :=
  ⟨(addPoolAddress_idempotent "pool2" ["pool1"]).2.1 (by decide),
   (addPoolAddress_idempotent "pool2" ["pool1"]).2.2.1,
   (addPoolAddress_idempotent "pool2" ["pool1"]).2.2.2 (by decide)⟩

/-- Claim C5: once a `CostBasis` is cached for a position, a failing
`valuate` call leaves both caches exactly as they were — the cost basis
is still cached and the previously cached valuation is untouched. -/
theorem valuate_failure_preserves_caches :
    ∀ (env : EngineEnv) (s : EngineState) (pool : String) (now : ℤ)
      (cb : CostBasis) (e : VErr),
      lookupKey s.costBasisCache pool = some cb →
      (valuate env s pool now).1 = .error e →
      (valuate env s pool now).2.costBasisCache = s.costBasisCache ∧
      (valuate env s pool now).2.valuations = s.valuations ∧
      lookupKey (valuate env s pool now).2.costBasisCache pool = some cb := by
  intro env s pool now cb e hcb herr
  by_cases ht : pool ∈ s.tracked
  · cases hps : env.positionState pool with
    | none =>
      rw [valuate_no_pos_state env s pool now ht hps]
      exact ⟨rfl, rfl, hcb⟩
    | some ps =>
      have hcor : cachedOrResolve env s pool = some cb := by
        simp [cachedOrResolve, hcb]
      rw [valuate_ok env s pool now ht ps cb hps hcor] at herr
      exact absurd herr (by simp)
  · rw [valuate_not_tracked env s pool now ht]
    exact ⟨rfl, rfl, hcb⟩

/-- An environment in which every ledger fetch fails. -/
def demoFailEnv : EngineEnv :=
  { feed := demoFeed
    poolTokenA := fun _ => "mintA"
    poolTokenB := fun _ => "mintB"
    positionState := fun _ => none
    creationEvidence := fun _ => none }

/-- An engine state with `poolA` tracked and both its cost basis and a
previous valuation cached. -/
def demoCachedState : EngineState :=
  ⟨["poolA"], [("poolA", demoCostBasis)], [("poolA", demoValuation)]⟩

/-- Concrete instance of C5: under an all-failing ledger, `valuate`
leaves the caches of `demoCachedState` untouched. -/
theorem valuate_failure_preserves_caches_witness :
    (valuate demoFailEnv demoCachedState "poolA" 5).2.costBasisCache
        = demoCachedState.costBasisCache ∧
    (valuate demoFailEnv demoCachedState "poolA" 5).2.valuations
        = demoCachedState.valuations ∧
    lookupKey (valuate demoFailEnv demoCachedState "poolA" 5).2.costBasisCache "poolA"
        = some demoCostBasis :=
  valuate_failure_preserves_caches demoFailEnv demoCachedState "poolA" 5 demoCostBasis
    .poolNotFound (by simp [demoCachedState, lookupKey]) (by rfl)

/-- Claim C6: `refreshAll` isolates per-position failures — every tracked
pool whose ledger fetch succeeds (and whose cost basis is cached or
resolvable) is revalued this cycle, its valuation is written to the
cache, and it appears in the resulting portfolio summary, regardless of
which other pools fail. -/
theorem refreshAll_partial_failure_isolation :
    ∀ (env : EngineEnv) (s : EngineState) (now : ℤ) (p : String),
      p ∈ s.tracked →
      env.positionState p ≠ none →
      (lookupKey s.costBasisCache p ≠ none ∨ env.creationEvidence p ≠ none) →
      ∃ v, lookupKey (refreshAll env s now).1.valuations p = some v ∧
           v.lastUpdated = now ∧
           ∃ sum, (refreshAll env s now).2 = some sum ∧ (p, v) ∈ sum.positions := by
  intro env s now p hp hps hcb
  obtain ⟨v, hv, hupd⟩ := refreshAll_fold_writes env now s.tracked s p hp hp hps hcb
  have hv' : lookupKey (refreshAll env s now).1.valuations p = some v := hv
  refine ⟨v, hv', hupd, ?_⟩
  have hne : ((refreshAll env s now).1.valuations).isEmpty = false := by
    cases hl : (refreshAll env s now).1.valuations with
    | nil => rw [hl] at hv'; simp [lookupKey] at hv'
    | cons a t => rfl
  have h2 : (refreshAll env s now).2
      = recompute ((refreshAll env s now).1.valuations) now := rfl
  cases hrec : (refreshAll env s now).2 with
  | none =>
    rw [h2] at hrec
    unfold recompute at hrec
    rw [if_neg (by simp [hne])] at hrec
    exact absurd hrec (by simp)
  | some sum =>
    refine ⟨sum, rfl, ?_⟩
    rw [h2] at hrec
    unfold recompute at hrec
    rw [if_neg (by simp [hne])] at hrec
    have hpos : sum.positions = (refreshAll env s now).1.valuations := by
      cases hrec
      rfl
    rw [hpos]
    exact mem_of_lookupKey_eq_some hv'

/-- An environment in which `poolB`'s ledger fetch fails while `poolA`
and `poolC` resolve fully. -/
def demoEnvABC : EngineEnv :=
  { feed := demoFeed
    poolTokenA := fun _ => "mintA"
    poolTokenB := fun _ => "mintB"
    positionState := fun p => if p = "poolB" then none else some ⟨10, 5, 1, 1⟩
    creationEvidence := fun p => if p = "poolB" then none else some ⟨4, 3, 0⟩ }

/-- Three tracked pools, nothing cached yet. -/
def demoStateABC : EngineState := ⟨["poolA", "poolB", "poolC"], [], []⟩

/-- Concrete instance of C6: with pools A, B, C tracked and pool B's
ledger fetch failing, `refreshAll` still revalues pools A and C and
includes both in the resulting summary. -/
theorem refreshAll_partial_failure_isolation_witness :
    (∃ v, lookupKey (refreshAll demoEnvABC demoStateABC 7).1.valuations "poolA" = some v ∧
          v.lastUpdated = 7 ∧
          ∃ sum, (refreshAll demoEnvABC demoStateABC 7).2 = some sum ∧
                 ("poolA", v) ∈ sum.positions) ∧
    (∃ v, lookupKey (refreshAll demoEnvABC demoStateABC 7).1.valuations "poolC" = some v ∧
          v.lastUpdated = 7 ∧
          ∃ sum, (refreshAll demoEnvABC demoStateABC 7).2 = some sum ∧
                 ("poolC", v) ∈ sum.positions) :=
  ⟨refreshAll_partial_failure_isolation demoEnvABC demoStateABC 7 "poolA"
      (by decide) (by simp [demoEnvABC]) (Or.inr (by simp [demoEnvABC])),
   refreshAll_partial_failure_isolation demoEnvABC demoStateABC 7 "poolC"
      (by decide) (by simp [demoEnvABC]) (Or.inr (by simp [demoEnvABC]))⟩

/-- Claim C7: `currentPrice` returns 0 on any feed failure;
`historicalPrice` returns 0 when no data point lies within the query
window; and whichever token leg's current price is 0, a successful
valuation's `currentTotalValueUSD` is exactly the USD value of the other,
priced leg alone. -/
theorem price_oracle_degradation :
    (∀ (feed : OracleFeed) (mint : String),
       feed.current mint = none → currentPrice feed mint = 0) ∧
    (∀ (feed : OracleFeed) (mint : String) (t0 : ℤ),
       (∀ q ∈ feed.history mint, QUERY_WINDOW < |q.1 - t0|) →
       historicalPrice feed mint t0 = 0) ∧
    (∀ (env : EngineEnv) (s : EngineState) (pool : String) (now : ℤ)
       (ps : PoolPosState) (v : PositionValuation),
       env.positionState pool = some ps →
       (valuate env s pool now).1 = .ok v →
       (currentPrice env.feed (env.poolTokenB pool) = 0 →
         v.currentTotalValueUSD
           = ps.tokenAAmount * currentPrice env.feed (env.poolTokenA pool)) ∧
       (currentPrice env.feed (env.poolTokenA pool) = 0 →
         v.currentTotalValueUSD
           = ps.tokenBAmount * currentPrice env.feed (env.poolTokenB pool))) := by
  refine ⟨?_, ?_, ?_⟩
  · intro feed mint h
    simp [currentPrice, h]
  · intro feed mint t0 h
    unfold historicalPrice
    have hfil : (feed.history mint).filter (fun q => |q.1 - t0| ≤ QUERY_WINDOW) = [] := by
      rw [List.filter_eq_nil_iff]
      intro q hq
      simpa using not_le.2 (h q hq)
    rw [hfil]
  · intro env s pool now ps v hps hok
    by_cases ht : pool ∈ s.tracked
    · cases hcb : cachedOrResolve env s pool with
      | none =>
        rw [valuate_no_cost_basis env s pool now ht ps hps hcb] at hok
        exact absurd hok (by simp)
      | some cb =>
        rw [valuate_ok env s pool now ht ps cb hps hcb] at hok
        have hv : v = mkValuation env pool ps cb now := by
          simpa using hok.symm
        rw [hv]
        constructor
        · intro hzero
          show ps.tokenAAmount * currentPrice env.feed (env.poolTokenA pool)
              + ps.tokenBAmount * currentPrice env.feed (env.poolTokenB pool) = _
          rw [hzero, mul_zero, add_zero]
        · intro hzero
          show ps.tokenAAmount * currentPrice env.feed (env.poolTokenA pool)
              + ps.tokenBAmount * currentPrice env.feed (env.poolTokenB pool) = _
          rw [hzero, mul_zero, zero_add]
    · rw [valuate_not_tracked env s pool now ht] at hok
      exact absurd hok (by simp)

/-- A feed that prices `mintA` but fails on every other mint. -/
def demoZeroFeed : OracleFeed :=
  { current := fun m => if m = "mintA" then some 2 else none
    history := demoFeed.history }

/-- The position state used by the degraded-feed scenario. -/
def demoPosState : PoolPosState := ⟨10, 5, 1, 1⟩

/-- `demoEnv` with the degraded feed: `poolA` resolves, but the B leg's
current price request fails. -/
def demoZeroEnv : EngineEnv :=
  { feed := demoZeroFeed
    poolTokenA := fun _ => "mintA"
    poolTokenB := fun _ => "mintB"
    positionState := fun p => if p = "poolA" then some demoPosState else none
    creationEvidence := fun p => if p = "poolA" then some ⟨4, 3, 0⟩ else none }

/-- Engine state with only `poolA` tracked and empty caches. -/
def demoTrackedState : EngineState := ⟨["poolA"], [], []⟩

/-- The valuation produced for `poolA` under the degraded feed: the B leg
prices at 0, so the 35 USD position values at only the A leg's
10 * 2 = 20 USD (plus 2 USD of priced fees). -/
def demoZeroBValuation : PositionValuation :=
  ⟨10, 5, 1, 1, 2, 0, 20, 2, 12, 120, 3, false, demoCostBasis⟩

/-- A feed that prices `mintB` but fails on every other mint (the mirror
of `demoZeroFeed`). -/
def demoZeroAFeed : OracleFeed :=
  { current := fun m => if m = "mintB" then some 3 else none
    history := demoFeed.history }

/-- `demoZeroEnv`'s mirror: `poolA` resolves, but the A leg's current
price request fails. -/
def demoZeroAEnv : EngineEnv :=
  { feed := demoZeroAFeed
    poolTokenA := fun _ => "mintA"
    poolTokenB := fun _ => "mintB"
    positionState := fun p => if p = "poolA" then some demoPosState else none
    creationEvidence := fun p => if p = "poolA" then some ⟨4, 3, 0⟩ else none }

/-- The valuation produced for `poolA` when the A leg prices at 0: the
position values at only the B leg's 5 * 3 = 15 USD (plus 3 USD of priced
fees). -/
def demoZeroAValuation : PositionValuation :=
  ⟨10, 5, 1, 1, 0, 3, 15, 3, 8, 80, 3, false, demoCostBasis⟩

/-- Concrete instance of C7: a failing feed prices at 0, an out-of-window
historical query prices at 0, and with either leg unpriced the degraded
valuation's total value is exactly the other, priced leg. -/
theorem price_oracle_degradation_witness :
    currentPrice ⟨fun _ => none, fun _ => []⟩ "mintX" = 0 ∧
    historicalPrice demoFeed "mintA" 10000 = 0 ∧
    demoZeroBValuation.currentTotalValueUSD
      = demoPosState.tokenAAmount
          * currentPrice demoZeroEnv.feed (demoZeroEnv.poolTokenA "poolA") ∧
    demoZeroAValuation.currentTotalValueUSD
      = demoPosState.tokenBAmount
          * currentPrice demoZeroAEnv.feed (demoZeroAEnv.poolTokenB "poolA") := by
  obtain ⟨ha, hb, hc⟩ := price_oracle_degradation
  refine ⟨ha _ "mintX" rfl, hb demoFeed "mintA" 10000 (by decide), ?_, ?_⟩
  · exact (hc demoZeroEnv demoTrackedState "poolA" 3 demoPosState demoZeroBValuation
      (by simp [demoZeroEnv])
      (by
        simp [valuate, demoZeroEnv, demoZeroFeed, demoFeed, demoTrackedState,
          cachedOrResolve, resolveCostBasis, mkValuation, currentPrice, historicalPrice,
          lookupKey, QUERY_WINDOW, STALE_THRESHOLD, List.filter, demoZeroBValuation,
          demoCostBasis, demoPosState]
        norm_num)).1
      (by simp [demoZeroEnv, demoZeroFeed, currentPrice])
  · exact (hc demoZeroAEnv demoTrackedState "poolA" 3 demoPosState demoZeroAValuation
      (by simp [demoZeroAEnv])
      (by
        simp [valuate, demoZeroAEnv, demoZeroAFeed, demoFeed, demoTrackedState,
          cachedOrResolve, resolveCostBasis, mkValuation, currentPrice, historicalPrice,
          lookupKey, QUERY_WINDOW, STALE_THRESHOLD, List.filter, demoZeroAValuation,
          demoCostBasis, demoPosState]
        norm_num)).2
      (by simp [demoZeroAEnv, demoZeroAFeed, currentPrice])


/-- Claim C3 (counterexample): on the freshly constructed backend wrapper
— empty valuation cache, no portfolio data computed — the
portfolio-summary accessor `getOverallPnL` returns the zero-valued
summary object `{ totalPnLUSD: 0, totalPnLPercentage: 0 }`, not the
`null` the spec prescribes for "no portfolio data yet". -/
theorem getOverallPnL_empty_counterexample :
    getOverallPnL initWrapperState = ⟨0, 0⟩ ∧
    getPortfolioSummarySpec initWrapperState = none := by
  constructor
  · rfl
  · simp [getPortfolioSummarySpec, initWrapperState]

/-- Claim C3 (amended): `getOverallPnL` never returns null — with no
computed portfolio data it returns the zero-valued summary
`{ totalPnLUSD: 0, totalPnLPercentage: 0 }`, and once an overall summary
has been stored it returns that summary. -/
theorem getOverallPnL_amended :
    ∀ s : WrapperState,
      (s.overallPnL = none → getOverallPnL s = ⟨0, 0⟩) ∧
      (∀ o, s.overallPnL = some o → getOverallPnL s = o) := by
  intro s
  constructor
  · intro h
    simp [getOverallPnL, h]
  · intro o h
    simp [getOverallPnL, h]

/-- Concrete instance of the amended C3: the fresh wrapper yields the
zero summary; a wrapper holding a summary yields that summary. -/
theorem getOverallPnL_amended_witness :
    getOverallPnL initWrapperState = ⟨0, 0⟩ ∧
    getOverallPnL ⟨[], some ⟨5, 7⟩⟩ = ⟨5, 7⟩ :=
  ⟨(getOverallPnL_amended initWrapperState).1 rfl,
   (getOverallPnL_amended ⟨[], some ⟨5, 7⟩⟩).2 ⟨5, 7⟩ rfl⟩

/-- Claim C8 (counterexample): the bulk accessor does not hand out a
defensive copy — clearing the Map returned by `getAllPnLData` changes
what the engine's own subsequent read of its PnL cache observes. -/
theorem getAllPnLData_alias_counterexample :
    readInternalPnLData
        (heapWrite ⟨[[("A", ⟨"A", 1, 2⟩)]]⟩ (getAllPnLData ⟨0⟩) [])
        ⟨0⟩ ≠
      readInternalPnLData ⟨[[("A", ⟨"A", 1, 2⟩)]]⟩ ⟨0⟩ := by
  simp [readInternalPnLData, heapWrite, heapRead, getAllPnLData]

/-- Claim C8 (amended): `getAllPnLData` / `getAllPositionsPnL` return the
engine's internal Map reference itself, so a caller-side mutation through
the returned reference is visible to every subsequent internal read. -/
theorem getAllPnLData_returns_live_reference :
    ∀ (h : MapHeap) (s : PnLHolder) (m : List (String × PositionPnL)),
      getAllPnLData s = s.pnlDataRef ∧
      (s.pnlDataRef < h.cells.length →
        readInternalPnLData (heapWrite h (getAllPnLData s) m) s = m) := by
  intro h s m
  refine ⟨rfl, fun hlt => ?_⟩
  simp [readInternalPnLData, heapWrite, heapRead, getAllPnLData,
    List.getD_eq_getElem?_getD, List.getElem?_set_self, hlt]

/-- Concrete instance of the amended C8: writing through the reference
returned by `getAllPnLData` is observed by the next internal read. -/
theorem getAllPnLData_returns_live_reference_witness :
    readInternalPnLData
        (heapWrite ⟨[[]]⟩ (getAllPnLData ⟨0⟩) [("B", ⟨"B", 3, 4⟩)]) ⟨0⟩
      = [("B", ⟨"B", 3, 4⟩)] :=
  (getAllPnLData_returns_live_reference ⟨[[]]⟩ ⟨0⟩ [("B", ⟨"B", 3, 4⟩)]).2 (by decide)

/-- Claim C9: `LancerBackend.initialize` refuses an empty, unparseable or
mainnet-default RPC URL before constructing any `Connection` or `CpAmm`;
the settings form's own placeholder `https://api.mainnet-beta.solana.com`
is rejected; and after any failing call from the fresh singleton all
three fields are null, so `isInitialized()` is false. -/
theorem initBackend_validation :
    ∀ env : InitEnv,
      ((jsTrim env.storedRpcUrl = "" ∨ env.urlParses env.storedRpcUrl = false ∨
        strIncludes env.storedRpcUrl "api.mainnet-beta.solana.com" = true) →
        initBackend env freshBackendState = ⟨false, freshBackendState, 0, 0⟩) ∧
      ((initBackend env freshBackendState).ok = false →
        (initBackend env freshBackendState).state = ⟨none, none, none⟩ ∧
        isInitialized (initBackend env freshBackendState).state = false) ∧
      (env.storedRpcUrl = "https://api.mainnet-beta.solana.com" →
        (initBackend env freshBackendState).ok = false ∧
        (initBackend env freshBackendState).connectionsCreated = 0 ∧
        (initBackend env freshBackendState).cpAmmsCreated = 0) := by
  intro env
  refine ⟨?_, ?_, ?_⟩
  · intro h
    unfold initBackend
    split_ifs with h1 h2 h3 h4 <;>
      first
        | rfl
        | (exfalso; rcases h with h | h | h <;> simp_all)
  · intro hok
    unfold initBackend at hok ⊢
    split_ifs at hok ⊢ <;> simp_all [isInitialized, freshBackendState]
  · intro hurl
    have hinc : strIncludes env.storedRpcUrl "api.mainnet-beta.solana.com" = true := by
      rw [hurl]; decide
    have htrim : ¬ jsTrim env.storedRpcUrl = "" := by
      rw [hurl]; decide
    unfold initBackend
    split_ifs <;> simp_all

/-- Concrete instance of C9: a blank RPC URL is refused with nothing
created, and the placeholder mainnet endpoint is refused even though it
parses as a URL. -/
theorem initBackend_validation_witness :
    initBackend ⟨"", fun _ => true, true⟩ freshBackendState
        = ⟨false, freshBackendState, 0, 0⟩ ∧
    (initBackend ⟨"https://api.mainnet-beta.solana.com", fun _ => true, true⟩
        freshBackendState).ok = false ∧
    isInitialized (initBackend ⟨"", fun _ => true, true⟩ freshBackendState).state = false :=
  ⟨(initBackend_validation ⟨"", fun _ => true, true⟩).1 (Or.inl (by decide)),
   ((initBackend_validation ⟨"https://api.mainnet-beta.solana.com", fun _ => true, true⟩).2.2
      rfl).1,
   ((initBackend_validation ⟨"", fun _ => true, true⟩).2.1
      (congrArg InitResult.ok
        ((initBackend_validation ⟨"", fun _ => true, true⟩).1 (Or.inl (by decide))))).2⟩

end Lancer
